import Mathlib

/-!
Verification of the dynamic filter-criterion builder of the helpdesk
repository (`src/helpdesk/api/doc.py`) and of the participant-email
backfill patch
(`src/helpdesk/helpdesk/doctype/hd_ticket/patches/backfill_participant_emails.py`).

The Python functions are shallowly embedded: Python values appearing in
filter conditions become the inductive type `Py`, pypika criteria become
the AST `Criterion`, a pypika table is modelled by its list of column
names (`getattr(table, field, None)` yields a column exactly when `field`
is one of them, matching the spec's "unknown fields return no predicate"),
and fallible functions return `Option`.
-/

/-!
Models of the Python string primitives the embedded code uses.  They are
defined on the character list of the string (rather than through the
positional `String` functions of the core library) so that every
definition in this file evaluates on concrete inputs by kernel reduction.
-/

/-- Python `str.lower()`.  Modelled character-wise with `Char.toLower`;
every string the embedded code lowercases (operator and conjunction
tokens, email addresses) is ASCII, where the two agree. -/
def pyLower (s : String) : String := ⟨s.data.map Char.toLower⟩

/-- Python `c in s` for a single-character needle. -/
def pyContains (s : String) (c : Char) : Bool := s.data.contains c

/-- Python `str.strip()`: drop leading and trailing whitespace. -/
def pyStrip (s : String) : String :=
  ⟨((s.data.dropWhile Char.isWhitespace).reverse.dropWhile Char.isWhitespace).reverse⟩

/-- Split a character list at every character satisfying `p`, keeping
empty pieces (so the result always has one more piece than there are
separator characters). -/
def splitListOnP (p : Char → Bool) : List Char → List (List Char)
  | [] => [[]]
  | c :: cs =>
    let r := splitListOnP p cs
    if p c then [] :: r
    else
      match r with
      | h :: t => (c :: h) :: t
      | [] => [c] :: []

/-- Python `str.split(sep)` for a single-character separator: split at
every occurrence of `sep`, keeping empty pieces (`"".split(",") == [""]`). -/
def pySplitOn (sep : Char) (s : String) : List String :=
  (splitListOnP (fun c => c = sep) s.data).map (fun l => ⟨l⟩)

/-- Python `str.split()` with no argument: split on runs of whitespace,
discarding empty pieces (so `"  ".split() == []`). -/
def pySplitWhitespace (s : String) : List String :=
  ((splitListOnP Char.isWhitespace s.data).map (fun l => (⟨l⟩ : String))).filter
    (fun p => p ≠ "")

/-- Python `sep.join(parts)`. -/
def pyJoin (sep : String) : List String → String
  | [] => ""
  | [x] => x
  | x :: xs => x ++ sep ++ pyJoin sep xs

/-- A Python value as it may occur in a filter condition: a string, an
integer, a list, a tuple, or `None`. -/
inductive Py where
  | pstr : String → Py
  | pint : Int → Py
  | plist : List Py → Py
  | ptuple : List Py → Py
  | pnone : Py

mutual

/-- Python `repr` of a value.  Strings are shown in quotes; the model does
not reproduce CPython's quote-selection and escape rules, which never
introduce or remove a `%` or comma character. -/
def pyRepr : Py → String
  | .pstr s => "'" ++ s ++ "'"
  | .pint n => toString n
  | .pnone => "None"
  | .plist xs => "[" ++ pyJoin ", " (pyReprList xs) ++ "]"
  | .ptuple [x] => "(" ++ pyRepr x ++ ",)"
  | .ptuple xs => "(" ++ pyJoin ", " (pyReprList xs) ++ ")"
termination_by p => sizeOf p

/-- `repr` of each element of a list of Python values. -/
def pyReprList : List Py → List String
  | [] => []
  | x :: xs => pyRepr x :: pyReprList xs
termination_by l => sizeOf l

end

/-- Python `str` of a value: the identity on strings, `repr` otherwise. -/
def pyStr : Py → String
  | .pstr s => s
  | v => pyRepr v

/-- A pypika table, modelled by the list of its column names.
`getattr(table, field, None)` is `None` exactly when `field` is not a
column of the table. -/
abbrev Table := List String

/-- The predicate tree produced by the builder: one constructor per pypika
operation used in `doc.py` (`==`, `!=`, `>`, `>=`, `<`, `<=`, `like`,
`not_like`, `isin`, `notin`, `isnull`, `isnotnull`, `&`, `|`). -/
inductive Criterion where
  | eq : String → Py → Criterion
  | ne : String → Py → Criterion
  | gt : String → Py → Criterion
  | ge : String → Py → Criterion
  | lt : String → Py → Criterion
  | le : String → Py → Criterion
  | like : String → Py → Criterion
  | notLike : String → Py → Criterion
  | isin : String → Py → Criterion
  | notin : String → Py → Criterion
  | isnull : String → Criterion
  | isnotnull : String → Criterion
  | cAnd : Criterion → Criterion → Criterion
  | cOr : Criterion → Criterion → Criterion

/-- The `[field, operator, value]` triple of a simple condition
(`conditions[0]`, `conditions[1]`, `conditions[2]` in the source, which
reads them only under the `_is_simple_condition` guard, where the first
two are strings). -/
def simpleTriple : List Py → Option (String × String × Py)
  | [Py.pstr f, Py.pstr op, v] => some (f, op, v)
  | _ => none

/-- `_is_simple_condition(conditions)` from `doc.py`: the list has exactly
three items, the first two are strings, and neither of them (lowercased)
is a conjunction token `"and"`/`"or"`. -/
def is_simple_condition : List Py → Bool
  | [Py.pstr a, Py.pstr b, _] =>
    !(pyLower a == "and" || pyLower a == "or") &&
    !(pyLower b == "and" || pyLower b == "or")
  | _ => false

/-- `_build_single_criterion(table, field, operator, value)` from
`doc.py`: looks the field up on the table (`None` when it is not a
column), lowercases the operator and dispatches on it, falling through to
an equality test.  The dead `"LIKE"`/`"NOT LIKE"` alternatives of the
source (dead because `op` is already lowercased) are kept. -/
def build_single_criterion (table : Table) (field operator : String)
    (value : Py) : Option Criterion :=
  if field ∈ table then
    let op := pyLower operator
    if op = "=" ∨ op = "==" ∨ op = "equals" then
      some (.eq field value)
    else if op = "!=" ∨ op = "not equals" then
      some (.ne field value)
    else if op = ">" then
      some (.gt field value)
    else if op = ">=" then
      some (.ge field value)
    else if op = "<" then
      some (.lt field value)
    else if op = "<=" then
      some (.le field value)
    else if op = "like" ∨ op = "LIKE" then
      let search_val :=
        if pyContains (pyStr value) '%' then value
        else Py.pstr ("%" ++ pyStr value ++ "%")
      some (.like field search_val)
    else if op = "not like" ∨ op = "NOT LIKE" then
      let search_val :=
        if pyContains (pyStr value) '%' then value
        else Py.pstr ("%" ++ pyStr value ++ "%")
      some (.notLike field search_val)
    else if op = "in" then
      match value with
      | Py.pstr s =>
        some (.isin field (Py.plist ((pySplitOn ',' s).map (fun v => Py.pstr (pyStrip v)))))
      | v => some (.isin field v)
    else if op = "not in" ∨ op = "not_in" then
      match value with
      | Py.pstr s =>
        some (.notin field (Py.plist ((pySplitOn ',' s).map (fun v => Py.pstr (pyStrip v)))))
      | v => some (.notin field v)
    else if op = "is" then
      if pyLower (pyStr value) = "set" then
        some (.cAnd (.isnotnull field) (.ne field (Py.pstr "")))
      else
        some (.cOr (.isnull field) (.eq field (Py.pstr "")))
    else if op = "between" then
      match value with
      | Py.pstr s =>
        if pyContains s ',' then
          let parts := pySplitOn ',' s
          some (.cAnd (.ge field (Py.pstr (pyStrip (parts.headD ""))))
                      (.le field (Py.pstr (pyStrip ((parts.drop 1).headD "")))))
        else some (.eq field value)
      | Py.plist xs | Py.ptuple xs =>
        match xs with
        | [a, b] => some (.cAnd (.ge field a) (.le field b))
        | _ => some (.eq field value)
      | _ => some (.eq field value)
    else
      some (.eq field value)
  else
    none

/-- The conjunction tokens of a condition list: lowercased string items
equal to `"and"` or `"or"` (the `conjunctions` accumulator of the loop in
`build_complex_criterion`). -/
def collectConjunctions : List Py → List String
  | [] => []
  | Py.pstr s :: rest =>
    if pyLower s = "and" ∨ pyLower s = "or" then
      pyLower s :: collectConjunctions rest
    else collectConjunctions rest
  | _ :: rest => collectConjunctions rest

/-- The combining loop of `build_complex_criterion`: fold the remaining
criteria onto `result`, taking for the i-th gap `conjunctions[i]` when it
exists and `"and"` otherwise (here: the head of the remaining conjunction
list, dropping one per step). -/
def combineCriteria : Criterion → List Criterion → List String → Criterion
  | result, [], _ => result
  | result, c :: cs, conjs =>
    let conj := conjs.headD "and"
    let result' := if conj = "or" then Criterion.cOr result c else Criterion.cAnd result c
    combineCriteria result' cs (conjs.drop 1)

mutual

/-- `build_complex_criterion(doctype, conditions, table)` from `doc.py`
(the `doctype` argument only serves to produce the table, which is passed
directly here).  Empty list: no criterion.  Simple condition
`[field, operator, value]`: a single criterion.  Otherwise: collect the
sub-criteria of the list items (strings that are conjunction tokens feed
the conjunction list, sub-lists are built recursively, `None` results are
dropped) and combine them, defaulting missing conjunctions to `"and"`. -/
def build_complex_criterion (table : Table) (conditions : List Py) :
    Option Criterion :=
  if conditions.isEmpty then none
  else if is_simple_condition conditions then
    match simpleTriple conditions with
    | some (f, op, v) => build_single_criterion table f op v
    | none => none
  else
    match collectCriteria table conditions with
    | [] => none
    | [c] => some c
    | c :: cs =>
      let conjunctions := collectConjunctions conditions
      -- `len(criteria) - 1 = cs.length`
      let conjs := if conjunctions = [] then List.replicate cs.length "and"
                   else conjunctions
      some (combineCriteria c cs conjs)
termination_by (sizeOf conditions, 1)

/-- The `criteria` accumulator of the loop in `build_complex_criterion`:
each sub-list item is built recursively and kept when it yields a
criterion; every other item contributes nothing. -/
def collectCriteria (table : Table) : List Py → List Criterion
  | [] => []
  | Py.plist xs :: rest =>
    (match build_complex_criterion table xs with
     | some c => c :: collectCriteria table rest
     | none => collectCriteria table rest)
  | _ :: rest => collectCriteria table rest
termination_by l => (sizeOf l, 0)

end

/-- The query assembled by `get_list_with_complex_filters` before it is
run against the database: selected columns, optional WHERE criterion,
optional ORDER BY (column, `"asc"`/`"desc"`), and the LIMIT. -/
structure QBQuery where
  selects : List String
  whereC : Option Criterion
  orderBy : Option (String × String)
  limit : Nat

/-- `get_list_with_complex_filters(doctype, fields, conditions, order_by,
page_length)` from `doc.py`, modelled up to the database call
(`query.run` is the DB boundary; the function here returns the query that
would be run).  Fields containing a `.` select their base column; unknown
columns are skipped.  The WHERE clause is the complex criterion when there
is one.  A non-empty `order_by` is split on whitespace into column and
optional direction; `none` models the `IndexError` the source raises when
a non-empty `order_by` contains only whitespace (`parts[0]` on `[]`). -/
def get_list_with_complex_filters (table : Table) (fields : List String)
    (conditions : List Py) (order_by : String) (page_length : Nat) :
    Option QBQuery :=
  let selects := fields.foldl (fun acc field =>
    if pyContains field '.' then
      -- Handle linked field like "contact.email_id" - just the base field
      let base := (pySplitOn '.' field).headD ""
      if base ∈ table then acc ++ [base] else acc
    else
      if field ∈ table then acc ++ [field] else acc) []
  let criterion := build_complex_criterion table conditions
  if order_by ≠ "" then
    match pySplitWhitespace order_by with
    | [] => none
    | field_name :: rest =>
      let direction := match rest with
        | d :: _ => pyLower d
        | [] => "asc"
      let ord := if field_name ∈ table then
          some (field_name, if direction = "desc" then "desc" else "asc")
        else none
      some ⟨selects, criterion, ord, page_length⟩
  else
    some ⟨selects, criterion, none, page_length⟩

/-!
Embedding of `backfill_participant_emails.py`.  A `Communication` row is
the four address fields the patch reads; the database query of
`get_participant_emails_for_ticket` is modelled by passing the list of
communications of the ticket directly.  The standard library's
`email.utils.parseaddr` is external to the repository and is abstracted
as a function returning the parsed address (its second component), with
`""` meaning no address was parsed — every theorem below holds for an
arbitrary such function.  Python `set`s are modelled as lists with
first-insertion order; CPython leaves set iteration order unspecified,
and none of the verified properties depend on it.
-/

/-- One `Communication` row: the `sender`, `recipients`, `cc` and `bcc`
fields, each possibly `NULL`. -/
structure Communication where
  sender : Option String
  recipients : Option String
  cc : Option String
  bcc : Option String

/-- `set.add`: append unless already present. -/
def setAdd (s : List String) (x : String) : List String :=
  if x ∈ s then s else s ++ [x]

/-- `set.update`: add every element of `xs`. -/
def setUnion (s : List String) (xs : List String) : List String :=
  xs.foldl setAdd s

/-- `extract_emails_from_string(email_string)` from the patch: empty
string yields the empty set; otherwise split on commas, strip each part,
skip empty parts, parse each part with `parseaddr` and collect the
non-empty results into a set. -/
def extract_emails_from_string (parseaddr : String → String)
    (email_string : String) : List String :=
  if email_string = "" then []
  else
    (pySplitOn ',' email_string).foldl (fun emails part =>
      let part := pyStrip part
      if part = "" then emails
      else
        let email := parseaddr part
        if email = "" then emails else setAdd emails email) []

/-- The `all_emails` set of `get_participant_emails_for_ticket`: the union
of the extracted emails of every non-empty address field of every
communication of the ticket. -/
def collect_all_emails (parseaddr : String → String)
    (communications : List Communication) : List String :=
  communications.foldl (fun acc comm =>
    [comm.sender, comm.recipients, comm.cc, comm.bcc].foldl (fun acc fv =>
      match fv with
      | some s => if s ≠ "" then setUnion acc (extract_emails_from_string parseaddr s) else acc
      | none => acc) acc) []

/-- The deduplication loop of `get_participant_emails_for_ticket`: walk
the emails keeping the first occurrence of each lowercased form, tracking
the lowercased forms already seen. -/
def dedup_case_insensitive (seen : List String) : List String → List String
  | [] => []
  | e :: rest =>
    if pyLower e ∈ seen then dedup_case_insensitive seen rest
    else e :: dedup_case_insensitive (setAdd seen (pyLower e)) rest

/-- `get_participant_emails_for_ticket(ticket_name)` from the patch,
taking the ticket's communications (the result of the `frappe.get_all`
call) directly: `None` when no email was extracted, otherwise the
comma-joined case-insensitive deduplication of the extracted emails
(`None` again should that list be empty). -/
def get_participant_emails_for_ticket (parseaddr : String → String)
    (communications : List Communication) : Option String :=
  let all_emails := collect_all_emails parseaddr communications
  if all_emails = [] then none
  else
    let final_emails := dedup_case_insensitive [] all_emails
    if final_emails = [] then none
    else some (pyJoin "," final_emails)

/-! Helper lemmas about the split model. -/

/-- Splitting always produces at least one piece. -/
theorem splitListOnP_ne_nil (p : Char → Bool) (l : List Char) :
    splitListOnP p l ≠ [] := by
  cases l with
  | nil => simp [splitListOnP]
  | cons c cs =>
    simp only [splitListOnP]
    split
    · simp
    · split <;> simp

/-- Splitting produces more than one piece exactly when some character
satisfies the splitting predicate. -/
theorem splitListOnP_length_gt_one (p : Char → Bool) (l : List Char) :
    1 < (splitListOnP p l).length ↔ l.any p = true := by
  induction l with
  | nil => simp [splitListOnP]
  | cons c cs ih =>
    simp only [splitListOnP, List.any_cons]
    by_cases h : p c = true
    · have := List.length_pos.mpr (splitListOnP_ne_nil p cs)
      simp [h]
      omega
    · cases hr : splitListOnP p cs with
      | nil => exact absurd hr (splitListOnP_ne_nil p cs)
      | cons a t =>
        rw [hr] at ih
        simp [h, hr]
        simpa using ih

/-- A string that splits on `','` into more than one piece contains a
comma. -/
theorem pyContains_comma_of_split (s : String) (p0 p1 : String)
    (rest : List String) (h : pySplitOn ',' s = p0 :: p1 :: rest) :
    pyContains s ',' = true := by
  have hlen : 1 < (splitListOnP (fun c => c = ',') s.data).length := by
    have : (pySplitOn ',' s).length = (splitListOnP (fun c => c = ',') s.data).length := by
      simp [pySplitOn]
    rw [h] at this
    simp at this
    omega
  have hany := (splitListOnP_length_gt_one _ _).mp hlen
  simp only [List.any_eq_true, decide_eq_true_eq] at hany
  obtain ⟨c, hc, hcc⟩ := hany
  subst hcc
  simpa [pyContains] using hc

/-- **C7**: on a known column, the operator tokens `=`, `==` and `equals`
(matched case-insensitively) yield the equality predicate, `!=` and
`not equals` the inequality predicate, and `<`, `<=`, `>`, `>=` the
corresponding order comparison of the column against the value. -/
theorem single_criterion_comparison_ops (table : Table) (f op : String)
    (v : Py) (hf : f ∈ table) :
    ((pyLower op = "=" ∨ pyLower op = "==" ∨ pyLower op = "equals") →
      build_single_criterion table f op v = some (.eq f v)) ∧
    ((pyLower op = "!=" ∨ pyLower op = "not equals") →
      build_single_criterion table f op v = some (.ne f v)) ∧
    (pyLower op = "<" →
      build_single_criterion table f op v = some (.lt f v)) ∧
    (pyLower op = "<=" →
      build_single_criterion table f op v = some (.le f v)) ∧
    (pyLower op = ">" →
      build_single_criterion table f op v = some (.gt f v)) ∧
    (pyLower op = ">=" →
      build_single_criterion table f op v = some (.ge f v)) := by
  refine ⟨?_, ?_, ?_, ?_, ?_, ?_⟩ <;> intro h
  · rcases h with h | h | h <;> simp +decide [build_single_criterion, hf, h]
  · rcases h with h | h <;> simp +decide [build_single_criterion, hf, h]
  all_goals simp +decide [build_single_criterion, hf, h]

/-- **C7** witness: `Equals` on a known column builds an equality
predicate. -/
theorem single_criterion_comparison_ops_witness :
    build_single_criterion ["status"] "status" "Equals" (Py.pstr "Open") =
      some (.eq "status" (Py.pstr "Open")) :=
  (single_criterion_comparison_ops ["status"] "status" "Equals"
    (Py.pstr "Open") (by decide)).1 (by decide)

/-- **C4**: for `like`/`not like` leaves, the value is wrapped as
`%value%` when its string form contains no `%` wildcard, and used
unchanged when it already contains one. -/
theorem single_criterion_like_wildcard (table : Table) (f op : String)
    (v : Py) (hf : f ∈ table) :
    (pyLower op = "like" → pyContains (pyStr v) '%' = false →
      build_single_criterion table f op v =
        some (.like f (Py.pstr ("%" ++ pyStr v ++ "%")))) ∧
    (pyLower op = "like" → pyContains (pyStr v) '%' = true →
      build_single_criterion table f op v = some (.like f v)) ∧
    (pyLower op = "not like" → pyContains (pyStr v) '%' = false →
      build_single_criterion table f op v =
        some (.notLike f (Py.pstr ("%" ++ pyStr v ++ "%")))) ∧
    (pyLower op = "not like" → pyContains (pyStr v) '%' = true →
      build_single_criterion table f op v = some (.notLike f v)) := by
  refine ⟨?_, ?_, ?_, ?_⟩ <;> intro h hw <;>
    simp +decide [build_single_criterion, hf, h, hw]

/-- **C4** witness: `LIKE` with a wildcard-free value wraps it in `%`. -/
theorem single_criterion_like_wildcard_witness :
    build_single_criterion ["subject"] "subject" "LIKE" (Py.pstr "printer") =
      some (.like "subject" (Py.pstr "%printer%")) :=
  (single_criterion_like_wildcard ["subject"] "subject" "LIKE"
    (Py.pstr "printer") (by decide)).1 (by decide) (by decide)

/-- **C5**: for `in`/`not in` leaves, a string value is split on commas
with each part whitespace-stripped before building the (negated)
membership predicate, while a list value is used as-is. -/
theorem single_criterion_in_split (table : Table) (f op s : String)
    (xs : List Py) (hf : f ∈ table) :
    (pyLower op = "in" →
      build_single_criterion table f op (Py.pstr s) =
        some (.isin f (Py.plist ((pySplitOn ',' s).map (fun t => Py.pstr (pyStrip t)))))) ∧
    (pyLower op = "in" →
      build_single_criterion table f op (Py.plist xs) =
        some (.isin f (Py.plist xs))) ∧
    (pyLower op = "not in" →
      build_single_criterion table f op (Py.pstr s) =
        some (.notin f (Py.plist ((pySplitOn ',' s).map (fun t => Py.pstr (pyStrip t)))))) ∧
    (pyLower op = "not in" →
      build_single_criterion table f op (Py.plist xs) =
        some (.notin f (Py.plist xs))) := by
  refine ⟨?_, ?_, ?_, ?_⟩ <;> intro h <;>
    simp +decide [build_single_criterion, hf, h]

/-- **C5** witness: `in` on the string `"Open, Closed"` builds membership
in the stripped parts. -/
theorem single_criterion_in_split_witness :
    build_single_criterion ["status"] "status" "in" (Py.pstr "Open, Closed") =
      some (.isin "status" (Py.plist [Py.pstr "Open", Py.pstr "Closed"])) :=
  (single_criterion_in_split ["status"] "status" "in" "Open, Closed" []
    (by decide)).1 (by decide)

/-- **C6**: for an `is` leaf, the value `"set"` (compared
case-insensitively on the value's string form) gives the
not-null-and-not-empty predicate; every other value, `"not set"`
included, gives the null-or-empty predicate. -/
theorem single_criterion_is_set (table : Table) (f op : String) (v : Py)
    (hf : f ∈ table) (hop : pyLower op = "is") :
    (pyLower (pyStr v) = "set" →
      build_single_criterion table f op v =
        some (.cAnd (.isnotnull f) (.ne f (Py.pstr "")))) ∧
    (pyLower (pyStr v) ≠ "set" →
      build_single_criterion table f op v =
        some (.cOr (.isnull f) (.eq f (Py.pstr "")))) := by
  constructor <;> intro h <;>
    simp +decide [build_single_criterion, hf, hop, h]

/-- **C6** witness: `is` with value `"not set"` builds the null-or-empty
predicate. -/
theorem single_criterion_is_set_witness :
    build_single_criterion ["priority"] "priority" "is" (Py.pstr "not set") =
      some (.cOr (.isnull "priority") (.eq "priority" (Py.pstr ""))) :=
  (single_criterion_is_set ["priority"] "priority" "is" (Py.pstr "not set")
    (by decide) (by decide)).2 (by decide)

/-- **C3**: a `between` leaf with a comma-containing string value builds
the range predicate over the whitespace-stripped pieces adjacent to the
first comma, and with a two-element list or tuple value the range
predicate over its two elements. -/
theorem single_criterion_between_range (table : Table) (f s p0 p1 : String)
    (rest : List String) (a b : Py) (hf : f ∈ table) :
    (pySplitOn ',' s = p0 :: p1 :: rest →
      build_single_criterion table f "between" (Py.pstr s) =
        some (.cAnd (.ge f (Py.pstr (pyStrip p0))) (.le f (Py.pstr (pyStrip p1))))) ∧
    (build_single_criterion table f "between" (Py.plist [a, b]) =
      some (.cAnd (.ge f a) (.le f b))) ∧
    (build_single_criterion table f "between" (Py.ptuple [a, b]) =
      some (.cAnd (.ge f a) (.le f b))) := by
  refine ⟨?_, ?_, ?_⟩
  · intro hsplit
    have hct := pyContains_comma_of_split s p0 p1 rest hsplit
    simp +decide [build_single_criterion, hf, hct, hsplit]
  · simp +decide [build_single_criterion, hf]
  · simp +decide [build_single_criterion, hf]

/-- **C3** witness: `between` on `" 1 , 5 "` compares against the
stripped bounds `1` and `5`. -/
theorem single_criterion_between_range_witness :
    build_single_criterion ["idx"] "idx" "between" (Py.pstr " 1 , 5 ") =
      some (.cAnd (.ge "idx" (Py.pstr "1")) (.le "idx" (Py.pstr "5"))) :=
  (single_criterion_between_range ["idx"] "idx" " 1 , 5 " " 1 " " 5 " []
    Py.pnone Py.pnone (by decide)).1 (by decide)

/-- **C8**: on a known column, an operator token outside the recognized
set falls through to the equality predicate, and so does a `between`
leaf whose value is neither a comma-containing string nor a two-element
list or tuple.  (The uppercase `"LIKE"`/`"NOT LIKE"` entries mirror the
source's dead alternatives; a lowercased token never equals them.) -/
theorem single_criterion_fallthrough (table : Table) (f op s : String)
    (v : Py) (xs : List Py) (n : Int) (hf : f ∈ table) :
    (pyLower op ∉ (["=", "==", "equals", "!=", "not equals", ">", ">=",
        "<", "<=", "like", "LIKE", "not like", "NOT LIKE", "in",
        "not in", "not_in", "is", "between"] : List String) →
      build_single_criterion table f op v = some (.eq f v)) ∧
    (pyContains s ',' = false →
      build_single_criterion table f "between" (Py.pstr s) =
        some (.eq f (Py.pstr s))) ∧
    (xs.length ≠ 2 →
      build_single_criterion table f "between" (Py.plist xs) =
        some (.eq f (Py.plist xs))) ∧
    (xs.length ≠ 2 →
      build_single_criterion table f "between" (Py.ptuple xs) =
        some (.eq f (Py.ptuple xs))) ∧
    (build_single_criterion table f "between" (Py.pint n) =
      some (.eq f (Py.pint n))) ∧
    (build_single_criterion table f "between" Py.pnone =
      some (.eq f Py.pnone)) := by
  refine ⟨?_, ?_, ?_, ?_, ?_, ?_⟩
  · intro hop
    simp only [List.mem_cons, List.not_mem_nil, or_false, not_or] at hop
    obtain ⟨h1, h2, h3, h4, h5, h6, h7, h8, h9, h10, h11, h12, h13, h14,
      h15, h16, h17, h18⟩ := hop
    simp [build_single_criterion, hf, h1, h2, h3, h4, h5, h6, h7, h8, h9,
      h10, h11, h12, h13, h14, h15, h16, h17, h18]
  · intro hc
    simp +decide [build_single_criterion, hf, hc]
  · intro hlen
    rcases xs with _ | ⟨x1, _ | ⟨x2, _ | ⟨x3, t⟩⟩⟩
    · simp +decide [build_single_criterion, hf]
    · simp +decide [build_single_criterion, hf]
    · simp at hlen
    · simp +decide [build_single_criterion, hf]
  · intro hlen
    rcases xs with _ | ⟨x1, _ | ⟨x2, _ | ⟨x3, t⟩⟩⟩
    · simp +decide [build_single_criterion, hf]
    · simp +decide [build_single_criterion, hf]
    · simp at hlen
    · simp +decide [build_single_criterion, hf]
  · simp +decide [build_single_criterion, hf]
  · simp +decide [build_single_criterion, hf]

/-- **C8** witness: the unrecognized token `contains` builds an equality
predicate, as does `between` over a three-element list. -/
theorem single_criterion_fallthrough_witness :
    build_single_criterion ["status"] "status" "contains" (Py.pstr "x") =
        some (.eq "status" (Py.pstr "x")) ∧
    build_single_criterion ["status"] "status" "between"
        (Py.plist [Py.pnone, Py.pnone, Py.pnone]) =
      some (.eq "status" (Py.plist [Py.pnone, Py.pnone, Py.pnone])) :=
  ⟨(single_criterion_fallthrough ["status"] "status" "contains" ""
      (Py.pstr "x") [] 0 (by decide)).1 (by decide),
   (single_criterion_fallthrough ["status"] "status" "between" ""
      Py.pnone [Py.pnone, Py.pnone, Py.pnone] 0 (by decide)).2.2.1 (by decide)⟩

/-! Unfolding and structure lemmas for the compound builder. -/

/-- Empty condition list: no criterion. -/
theorem build_complex_nil (table : Table) :
    build_complex_criterion table [] = none := by
  simp [build_complex_criterion]

/-- A simple condition builds the single criterion of its triple. -/
theorem build_complex_leaf (table : Table) (f op : String) (v : Py)
    (hs : is_simple_condition [Py.pstr f, Py.pstr op, v] = true) :
    build_complex_criterion table [Py.pstr f, Py.pstr op, v] =
      build_single_criterion table f op v := by
  simp [build_complex_criterion, simpleTriple, hs]

/-- A non-empty, non-simple condition list is combined from its collected
criteria and conjunctions. -/
theorem build_complex_compound (table : Table) (conds : List Py)
    (hne : conds ≠ []) (hns : is_simple_condition conds = false) :
    build_complex_criterion table conds =
      (match collectCriteria table conds with
       | [] => none
       | [c] => some c
       | c :: cs => some (combineCriteria c cs
           (if collectConjunctions conds = [] then List.replicate cs.length "and"
            else collectConjunctions conds))) := by
  cases conds with
  | nil => exact absurd rfl hne
  | cons a l =>
    rw [build_complex_criterion]
    simp only [List.isEmpty_cons, hns, Bool.false_eq_true, if_false]

theorem collectCriteria_nil (table : Table) : collectCriteria table [] = [] := by
  simp [collectCriteria]

theorem collectCriteria_cons_plist (table : Table) (xs : List Py)
    (rest : List Py) :
    collectCriteria table (Py.plist xs :: rest) =
      (match build_complex_criterion table xs with
       | some c => c :: collectCriteria table rest
       | none => collectCriteria table rest) := by
  simp [collectCriteria]

theorem collectCriteria_cons_pstr (table : Table) (s : String)
    (rest : List Py) :
    collectCriteria table (Py.pstr s :: rest) = collectCriteria table rest := by
  simp [collectCriteria]

theorem collectCriteria_cons_pint (table : Table) (n : Int) (rest : List Py) :
    collectCriteria table (Py.pint n :: rest) = collectCriteria table rest := by
  simp [collectCriteria]

theorem collectCriteria_cons_ptuple (table : Table) (xs : List Py)
    (rest : List Py) :
    collectCriteria table (Py.ptuple xs :: rest) = collectCriteria table rest := by
  simp [collectCriteria]

theorem collectCriteria_cons_pnone (table : Table) (rest : List Py) :
    collectCriteria table (Py.pnone :: rest) = collectCriteria table rest := by
  simp [collectCriteria]

/-- Collected criteria distribute over list concatenation. -/
theorem collectCriteria_append (table : Table) (l1 l2 : List Py) :
    collectCriteria table (l1 ++ l2) =
      collectCriteria table l1 ++ collectCriteria table l2 := by
  induction l1 with
  | nil => simp [collectCriteria_nil]
  | cons a l ih =>
    cases a with
    | pstr s => simpa [collectCriteria_cons_pstr] using ih
    | pint n => simpa [collectCriteria_cons_pint] using ih
    | plist xs =>
      rw [List.cons_append, collectCriteria_cons_plist,
        collectCriteria_cons_plist]
      cases build_complex_criterion table xs <;> simp [ih]
    | ptuple xs => simpa [collectCriteria_cons_ptuple] using ih
    | pnone => simpa [collectCriteria_cons_pnone] using ih

/-- Collected conjunctions distribute over list concatenation. -/
theorem collectConjunctions_append (l1 l2 : List Py) :
    collectConjunctions (l1 ++ l2) =
      collectConjunctions l1 ++ collectConjunctions l2 := by
  induction l1 with
  | nil => simp [collectConjunctions]
  | cons a l ih =>
    cases a with
    | pstr s =>
      by_cases h : pyLower s = "and" ∨ pyLower s = "or" <;>
        simp [collectConjunctions, h, ih]
    | pint n => simpa [collectConjunctions] using ih
    | plist xs => simpa [collectConjunctions] using ih
    | ptuple xs => simpa [collectConjunctions] using ih
    | pnone => simpa [collectConjunctions] using ih

/-- A condition list whose head is a sub-list is never simple. -/
theorem is_simple_condition_head_plist (xs : List Py) (t : List Py) :
    is_simple_condition (Py.plist xs :: t) = false := by
  cases t with
  | nil => simp [is_simple_condition]
  | cons b t2 =>
    cases t2 with
    | nil => simp [is_simple_condition]
    | cons c t3 =>
      cases t3 with
      | nil => simp [is_simple_condition]
      | cons d t4 => simp [is_simple_condition]

/-- Sub-lists contribute their built criteria, in order. -/
theorem collectCriteria_map_plist (table : Table) :
    ∀ (subs : List (List Py)) (cs : List Criterion),
    subs.map (build_complex_criterion table) = cs.map some →
    collectCriteria table (subs.map Py.plist) = cs := by
  intro subs
  induction subs with
  | nil =>
    intro cs h
    cases cs with
    | nil => simp [collectCriteria_nil]
    | cons c t => simp at h
  | cons s ss ih =>
    intro cs h
    cases cs with
    | nil => simp at h
    | cons c t =>
      simp only [List.map_cons, List.cons.injEq] at h
      rw [List.map_cons, collectCriteria_cons_plist, h.1, ih t h.2]

/-- A pure list of sub-lists carries no conjunction tokens. -/
theorem collectConjunctions_map_plist (subs : List (List Py)) :
    collectConjunctions (subs.map Py.plist) = [] := by
  induction subs with
  | nil => simp [collectConjunctions]
  | cons s ss ih => simpa [collectConjunctions] using ih

/-- With no conjunction tokens the combining loop is a left `AND`-fold. -/
theorem combineCriteria_replicate_and :
    ∀ (cs : List Criterion) (c : Criterion) (k : Nat),
    combineCriteria c cs (List.replicate k "and") = cs.foldl Criterion.cAnd c := by
  intro cs
  induction cs with
  | nil => intro c k; simp [combineCriteria]
  | cons d ds ih =>
    intro c k
    cases k with
    | zero => simpa [combineCriteria] using ih _ 0
    | succ k' => simpa [combineCriteria] using ih _ k'

/-- Padding the conjunction list with `"and"` entries does not change the
combination: the loop already defaults every missing conjunction to
`"and"`. -/
theorem combineCriteria_pad_and :
    ∀ (cs : List Criterion) (c : Criterion) (conjs : List String) (k : Nat),
    combineCriteria c cs (conjs ++ List.replicate k "and") =
      combineCriteria c cs conjs := by
  intro cs
  induction cs with
  | nil => intro c conjs k; simp [combineCriteria]
  | cons d ds ih =>
    intro c conjs k
    cases conjs with
    | nil =>
      cases k with
      | zero => simp
      | succ k' => simpa [combineCriteria] using ih _ [] k'
    | cons a as => simpa [combineCriteria] using ih _ as k

/-- **C1**: a compound filter of more than two sub-expressions with no
conjunction tokens combines their predicates left-to-right with `AND`;
and with fewer conjunction tokens than gaps between collected predicates,
the combination behaves exactly as if the conjunction list were padded
with `"and"` — every missing conjunction defaults to `AND`. -/
theorem build_complex_missing_conjunctions_default_and (table : Table)
    (subs : List (List Py)) (c0 c1 : Criterion) (rest : List Criterion)
    (conds : List Py) (d0 : Criterion) (drest : List Criterion) :
    (2 < subs.length →
      subs.map (build_complex_criterion table) = (c0 :: c1 :: rest).map some →
      build_complex_criterion table (subs.map Py.plist) =
        some ((c1 :: rest).foldl Criterion.cAnd c0)) ∧
    (conds ≠ [] → is_simple_condition conds = false →
      collectCriteria table conds = d0 :: drest →
      (collectConjunctions conds).length < drest.length →
      build_complex_criterion table conds =
        some (combineCriteria d0 drest (collectConjunctions conds ++
          List.replicate (drest.length - (collectConjunctions conds).length) "and"))) := by
  constructor
  · intro hlen hall
    cases subs with
    | nil => simp at hlen
    | cons s ss =>
      have hns : is_simple_condition ((s :: ss).map Py.plist) = false := by
        simpa using is_simple_condition_head_plist s (ss.map Py.plist)
      have hne : (s :: ss).map Py.plist ≠ [] := by simp
      rw [build_complex_compound table _ hne hns]
      have hcc := collectCriteria_map_plist table (s :: ss) (c0 :: c1 :: rest) hall
      rw [hcc, collectConjunctions_map_plist]
      simp [combineCriteria_replicate_and]
  · intro hne hns hcrit hlt
    rw [build_complex_compound table conds hne hns, hcrit]
    cases drest with
    | nil => simp at hlt
    | cons d1 dr =>
      by_cases hc : collectConjunctions conds = []
      · simp [hc]
      · simp [hc, combineCriteria_pad_and]

/-- **C1** witness: three leaves with no conjunctions fold with `AND`,
and one `"or"` token among three sub-expressions leaves the second gap
defaulting to `AND`. -/
theorem build_complex_missing_conjunctions_default_and_witness :
    build_complex_criterion ["a", "b", "c"]
        [Py.plist [Py.pstr "a", Py.pstr "=", Py.pstr "1"],
         Py.plist [Py.pstr "b", Py.pstr "=", Py.pstr "2"],
         Py.plist [Py.pstr "c", Py.pstr "=", Py.pstr "3"]] =
      some (.cAnd (.cAnd (.eq "a" (Py.pstr "1")) (.eq "b" (Py.pstr "2")))
        (.eq "c" (Py.pstr "3"))) ∧
    build_complex_criterion ["a", "b", "c"]
        [Py.plist [Py.pstr "a", Py.pstr "=", Py.pstr "1"], Py.pstr "or",
         Py.plist [Py.pstr "b", Py.pstr "=", Py.pstr "2"],
         Py.plist [Py.pstr "c", Py.pstr "=", Py.pstr "3"]] =
      some (.cAnd (.cOr (.eq "a" (Py.pstr "1")) (.eq "b" (Py.pstr "2")))
        (.eq "c" (Py.pstr "3"))) :=
  ⟨(build_complex_missing_conjunctions_default_and ["a", "b", "c"]
      [[Py.pstr "a", Py.pstr "=", Py.pstr "1"],
       [Py.pstr "b", Py.pstr "=", Py.pstr "2"],
       [Py.pstr "c", Py.pstr "=", Py.pstr "3"]]
      (.eq "a" (Py.pstr "1")) (.eq "b" (Py.pstr "2")) [.eq "c" (Py.pstr "3")]
      [] (.eq "a" (Py.pstr "1")) []).1 (by decide)
      (by simp +decide [build_complex_criterion, build_single_criterion,
        is_simple_condition, simpleTriple]),
   (build_complex_missing_conjunctions_default_and ["a", "b", "c"] []
      (.eq "a" (Py.pstr "1")) (.eq "a" (Py.pstr "1")) []
      [Py.plist [Py.pstr "a", Py.pstr "=", Py.pstr "1"], Py.pstr "or",
       Py.plist [Py.pstr "b", Py.pstr "=", Py.pstr "2"],
       Py.plist [Py.pstr "c", Py.pstr "=", Py.pstr "3"]]
      (.eq "a" (Py.pstr "1"))
      [.eq "b" (Py.pstr "2"), .eq "c" (Py.pstr "3")]).2 (by simp) (by decide)
      (by simp +decide [collectCriteria, build_complex_criterion,
        build_single_criterion, is_simple_condition, simpleTriple])
      (by decide)⟩

/-- **C2**: a leaf on a field that is not a column builds no predicate
(`None` instead of raising), and a compound expression containing such a
leaf builds exactly what the remaining sub-expressions build. -/
theorem unknown_field_drops_leaf (table : Table) (f op : String) (v : Py)
    (pre post : List Py) (hf : f ∉ table) :
    build_single_criterion table f op v = none ∧
    (is_simple_condition [Py.pstr f, Py.pstr op, v] = true →
      is_simple_condition
        (pre ++ Py.plist [Py.pstr f, Py.pstr op, v] :: post) = false →
      is_simple_condition (pre ++ post) = false →
      build_complex_criterion table
          (pre ++ Py.plist [Py.pstr f, Py.pstr op, v] :: post) =
        build_complex_criterion table (pre ++ post)) := by
  constructor
  · simp [build_single_criterion, hf]
  · intro hsl hns1 hns2
    have hleaf :
        build_complex_criterion table [Py.pstr f, Py.pstr op, v] = none := by
      rw [build_complex_leaf table f op v hsl]
      simp [build_single_criterion, hf]
    have hcc :
        collectCriteria table
            (pre ++ Py.plist [Py.pstr f, Py.pstr op, v] :: post) =
          collectCriteria table (pre ++ post) := by
      rw [collectCriteria_append, collectCriteria_append,
        collectCriteria_cons_plist, hleaf]
    have hcj :
        collectConjunctions
            (pre ++ Py.plist [Py.pstr f, Py.pstr op, v] :: post) =
          collectConjunctions (pre ++ post) := by
      rw [collectConjunctions_append, collectConjunctions_append]
      simp [collectConjunctions]
    by_cases hpp : pre ++ post = []
    · obtain ⟨hpre, hpost⟩ := List.append_eq_nil.mp hpp
      subst hpre hpost
      simp only [List.nil_append]
      rw [build_complex_compound table _ (by simp)
        (is_simple_condition_head_plist _ _)]
      rw [collectCriteria_cons_plist, hleaf, collectCriteria_nil,
        build_complex_nil]
    · rw [build_complex_compound table _ (by simp) hns1,
        build_complex_compound table _ hpp hns2, hcc, hcj]

/-- **C2** witness: a leaf on the unknown field `nosuch` builds nothing,
and a compound keeps only the predicate of its known-field leaf. -/
theorem unknown_field_drops_leaf_witness :
    build_single_criterion ["status"] "nosuch" "=" (Py.pstr "x") = none ∧
    build_complex_criterion ["status"]
        [Py.plist [Py.pstr "nosuch", Py.pstr "=", Py.pstr "x"],
         Py.plist [Py.pstr "status", Py.pstr "=", Py.pstr "Open"]] =
      build_complex_criterion ["status"]
        [Py.plist [Py.pstr "status", Py.pstr "=", Py.pstr "Open"]] :=
  ⟨(unknown_field_drops_leaf ["status"] "nosuch" "=" (Py.pstr "x") [] []
      (by decide)).1,
   (unknown_field_drops_leaf ["status"] "nosuch" "=" (Py.pstr "x") []
      [Py.plist [Py.pstr "status", Py.pstr "=", Py.pstr "Open"]]
      (by decide)).2 (by decide) (by decide) (by decide)⟩

/-- **C9**: an empty condition list and a compound whose sub-expressions
all yield no predicate both build no criterion; and whenever the built
criterion is `None`, the query issued by `get_list_with_complex_filters`
has no WHERE clause and carries the requested page length as its LIMIT. -/
theorem no_criterion_no_where_clause (table : Table) (conds : List Py)
    (fields : List String) (order_by : String) (page_length : Nat)
    (q : QBQuery) :
    build_complex_criterion table [] = none ∧
    (is_simple_condition conds = false → collectCriteria table conds = [] →
      build_complex_criterion table conds = none) ∧
    (build_complex_criterion table conds = none →
      get_list_with_complex_filters table fields conds order_by page_length =
        some q →
      q.whereC = none ∧ q.limit = page_length) := by
  refine ⟨build_complex_nil table, ?_, ?_⟩
  · intro hns hcc
    by_cases h : conds = []
    · subst h; exact build_complex_nil table
    · rw [build_complex_compound table conds h hns, hcc]
  · intro hb hq
    simp only [get_list_with_complex_filters, hb] at hq
    by_cases ho : order_by = ""
    · simp only [ho, ne_eq, not_true_eq_false, if_false, reduceIte,
        Option.some.injEq] at hq
      subst hq
      exact ⟨rfl, rfl⟩
    · simp only [ne_eq, ho, not_false_eq_true, if_true, reduceIte] at hq
      cases hsp : pySplitWhitespace order_by with
      | nil => rw [hsp] at hq; simp at hq
      | cons w ws =>
        rw [hsp] at hq
        simp only [Option.some.injEq] at hq
        subst hq
        exact ⟨rfl, rfl⟩

/-- **C9** witness: an all-unknown-field compound builds no criterion,
and the resulting query has no WHERE clause and keeps its LIMIT. -/
theorem no_criterion_no_where_clause_witness :
    build_complex_criterion ["status"]
        [Py.plist [Py.pstr "nosuch", Py.pstr "=", Py.pstr "x"]] = none ∧
    ((⟨["status"], none, none, 20⟩ : QBQuery).whereC = none ∧
     (⟨["status"], none, none, 20⟩ : QBQuery).limit = 20) :=
  ⟨(no_criterion_no_where_clause ["status"]
      [Py.plist [Py.pstr "nosuch", Py.pstr "=", Py.pstr "x"]] ["status"]
      "" 20 ⟨["status"], none, none, 20⟩).2.1
      (by decide)
      (by simp +decide [collectCriteria, build_complex_criterion,
        build_single_criterion, is_simple_condition, simpleTriple]),
   (no_criterion_no_where_clause ["status"]
      [Py.plist [Py.pstr "nosuch", Py.pstr "=", Py.pstr "x"]] ["status"]
      "" 20 ⟨["status"], none, none, 20⟩).2.2
      (by simp +decide [collectCriteria, build_complex_criterion,
        build_single_criterion, is_simple_condition, simpleTriple])
      (by simp +decide [get_list_with_complex_filters, collectCriteria,
        build_complex_criterion, build_single_criterion,
        is_simple_condition, simpleTriple, pyContains])⟩

/-! Lemmas for the participant-email backfill. -/

/-- Membership in a set after `add`. -/
theorem setAdd_mem (s : List String) (x y : String) :
    x ∈ setAdd s y ↔ x ∈ s ∨ x = y := by
  by_cases h : y ∈ s <;> simp [setAdd, h]
  rintro rfl
  exact h

/-- The deduplication loop keeps only elements of its input whose
lowercased form was not yet seen, and its output is pairwise distinct
case-insensitively. -/
theorem dedup_case_insensitive_spec :
    ∀ (l seen : List String),
    (dedup_case_insensitive seen l).Pairwise
      (fun a b => pyLower a ≠ pyLower b) ∧
    ∀ e ∈ dedup_case_insensitive seen l, e ∈ l ∧ pyLower e ∉ seen := by
  intro l
  induction l with
  | nil => intro seen; simp [dedup_case_insensitive]
  | cons e rest ih =>
    intro seen
    by_cases h : pyLower e ∈ seen
    · rw [dedup_case_insensitive, if_pos h]
      refine ⟨(ih seen).1, ?_⟩
      intro x hx
      obtain ⟨hx1, hx2⟩ := (ih seen).2 x hx
      exact ⟨List.mem_cons_of_mem _ hx1, hx2⟩
    · rw [dedup_case_insensitive, if_neg h]
      constructor
      · refine List.Pairwise.cons ?_ (ih _).1
        intro b hb heq
        have hb2 := ((ih (setAdd seen (pyLower e))).2 b hb).2
        exact hb2 ((setAdd_mem _ _ _).mpr (Or.inr heq.symm))
      · intro x hx
        rcases List.mem_cons.mp hx with rfl | hx2
        · exact ⟨List.mem_cons_self _ _, h⟩
        · obtain ⟨hm, hs⟩ := (ih (setAdd seen (pyLower e))).2 x hx2
          refine ⟨List.mem_cons_of_mem _ hm, fun hin => ?_⟩
          exact hs ((setAdd_mem _ _ _).mpr (Or.inl hin))

/-- **C10**: no extracted email means `None`; otherwise the result is the
comma-join of the case-insensitive deduplication of the extracted emails,
whose entries are pairwise distinct case-insensitively and each taken
verbatim (original casing) from the extracted set. -/
theorem participant_emails_unique (parseaddr : String → String)
    (comms : List Communication) :
    (get_participant_emails_for_ticket parseaddr comms = none ↔
      collect_all_emails parseaddr comms = []) ∧
    (collect_all_emails parseaddr comms ≠ [] →
      get_participant_emails_for_ticket parseaddr comms =
        some (pyJoin "," (dedup_case_insensitive []
          (collect_all_emails parseaddr comms))) ∧
      (dedup_case_insensitive []
        (collect_all_emails parseaddr comms)).Pairwise
          (fun a b => pyLower a ≠ pyLower b) ∧
      ∀ e ∈ dedup_case_insensitive [] (collect_all_emails parseaddr comms),
        e ∈ collect_all_emails parseaddr comms) := by
  constructor
  · constructor
    · intro h
      cases hall : collect_all_emails parseaddr comms with
      | nil => rfl
      | cons x l =>
        have hd : dedup_case_insensitive [] (x :: l) ≠ [] := by
          simp [dedup_case_insensitive]
        rw [get_participant_emails_for_ticket, hall] at h
        simp [hd] at h
    · intro h
      simp [get_participant_emails_for_ticket, h]
  · intro hne
    refine ⟨?_, (dedup_case_insensitive_spec _ []).1,
      fun e he => ((dedup_case_insensitive_spec _ []).2 e he).1⟩
    cases hall : collect_all_emails parseaddr comms with
    | nil => exact absurd hall hne
    | cons x l =>
      have hd : dedup_case_insensitive [] (x :: l) ≠ [] := by
        simp [dedup_case_insensitive]
      rw [get_participant_emails_for_ticket, hall]
      simp [hd]

/-- **C10** witness: two casings of the same address are joined once,
keeping the casing seen first. -/
theorem participant_emails_unique_witness :
    get_participant_emails_for_ticket (fun s => s)
        [⟨some "A@x.com", some "a@X.com, b@y.com", none, some ""⟩] =
      some "A@x.com,b@y.com" :=
  ((participant_emails_unique (fun s => s)
      [⟨some "A@x.com", some "a@X.com, b@y.com", none, some ""⟩]).2
    (by decide)).1
